import Mathlib

/-!
# travis-rpc: the REST front end of the transaction-processing core

A shallow embedding of `rest.go`: the construction of the middleware chain, the
genesis loop and commit of `main`, and the three HTTP handlers `checkTx`,
`deliverTx` and `query`.

The handler chain (`sdk.Handler`), the store (`app.StoreApp`) and the wire codecs
are library values used by `rest.go`; the chain and the codecs are parameters of
the embedding, the store follows the contract of the VersionedStore.  Every call
that `rest.go` makes on the store and on the chain, and the start of the server,
is recorded, in program order, in a trace of events.  The server is embedded as
serving its requests one after the other.  Output printed with `fmt.Printf` is
not part of the embedding.
-/

namespace TravisRpc

/-! ## Data model -/

/-- A byte string (`[]byte`), one natural number below 256 per byte. -/
abbrev Bytes := List Nat

/-- An `error` value, identified by its message. -/
abbrev Error := String

/-- The value `coin.Coin{Denom, Amount}`. -/
structure Coin where
  Denom : String
  Amount : Int
  deriving DecidableEq, Repr

/-- The actor `fee.Bank` that collects the fees. -/
inductive Actor where
  | Bank
  deriving DecidableEq, Repr

/-- The middleware stages that `main` hands to the stack builder. -/
inductive Middleware where
  /-- The stage `base.Logger{}`. -/
  | Logger
  /-- The stage `stack.Recovery{}`. -/
  | Recovery
  /-- The stage `auth.Signatures{}`. -/
  | Signatures
  /-- The stage `base.Chain{}`. -/
  | Chain
  /-- The stage `stack.Checkpoint{OnCheck: .., OnDeliver: ..}`. -/
  | Checkpoint (OnCheck OnDeliver : Bool)
  /-- The stage `nonce.ReplayCheck{}`. -/
  | ReplayCheck
  /-- The stage `ibc.NewMiddleware()`. -/
  | IBCMiddleware
  /-- The stage `roles.NewMiddleware()`. -/
  | RolesMiddleware
  /-- The stage `fee.NewSimpleFeeMiddleware(minFee, collector)`. -/
  | SimpleFeeMiddleware (minFee : Coin) (collector : Actor)
  deriving DecidableEq, Repr

/-- The module handlers that `main` hands to `Dispatch`. -/
inductive Dispatchable where
  /-- The handler `coin.NewHandler()`. -/
  | CoinHandler
  /-- The handler `stack.WrapHandler(roles.NewHandler())`. -/
  | RolesHandler
  /-- The handler `stack.WrapHandler(ibc.NewHandler())`. -/
  | IBCHandler
  deriving DecidableEq, Repr

/-- The stack builder: the ordered list of stages collected so far. -/
structure builder where
  middles : List Middleware
  deriving DecidableEq, Repr

/-- The call `stack.New(mid...)`: a builder holding the given stages, in order. -/
def stack.New (mid : List Middleware) : builder :=
  { middles := mid }

/-- The call `.IBC(m)`: the stage is added after the stages collected so far. -/
def builder.IBC (s : builder) (m : Middleware) : builder :=
  { middles := s.middles ++ [m] }

/-- The call `.Apps(app...)`: the stages are added, in order, after the stages
collected so far. -/
def builder.Apps (s : builder) (app : List Middleware) : builder :=
  { middles := s.middles ++ app }

/-- The builder on which `main` calls `Dispatch` (rest.go, lines 40-53). -/
def chainBuilder : builder :=
  ((stack.New [
      Middleware.Logger,
      Middleware.Recovery,
      Middleware.Signatures,
      Middleware.Chain,
      Middleware.Checkpoint true false,
      Middleware.ReplayCheck ]).IBC
    Middleware.IBCMiddleware).Apps [
      Middleware.RolesMiddleware,
      Middleware.SimpleFeeMiddleware { Denom := "strings", Amount := 0 } Actor.Bank,
      Middleware.Checkpoint false true ]

/-- The routes that `main` hands to `Dispatch` (rest.go, lines 54-59). -/
def chainRoutes : List Dispatchable :=
  [Dispatchable.CoinHandler, Dispatchable.RolesHandler, Dispatchable.IBCHandler]

/-- The ordered list of stages from which the chain is constructed. -/
def chainStages : List Middleware :=
  chainBuilder.middles

/-- The fee-deduction stage as `main` configures it. -/
def feeStage : Middleware :=
  Middleware.SimpleFeeMiddleware { Denom := "strings", Amount := 0 } Actor.Bank

/-- Modelled from the spec: the run of the chain over its stages (the algorithm
`process` of the MiddlewareChain, which lives in the stack library).  The stages
are invoked in order; a stage either rejects with an error, and then no further
stage runs, or hands a possibly changed call on to the rest of the chain.  The
result is the list of stages that were invoked, in order, and the rejection, if
any; `none` means the call reached the Dispatcher. -/
def process {α : Type} (stage : Middleware → α → Except Error α) :
    List Middleware → α → List Middleware × Option Error
  | [], _ => ([], none)
  | s :: rest, call =>
    match stage s call with
    | Except.error e => ([s], some e)
    | Except.ok call' =>
      let r := process stage rest call'
      (s :: r.1, r.2)

/-! ## The store -/

/-- The content of a snapshot, or the pending writes of a view: key/value pairs,
the pair nearest to the head being the one a read of its key sees. -/
abbrev KV := List (Bytes × Bytes)

/-- The two live views of the store. -/
inductive ViewKind where
  | Check
  | Deliver
  deriving DecidableEq, Repr

/-- A view handed out by the store (`state.SimpleDB`): its pending writes, laid
over the snapshot it was derived from. -/
structure SimpleDB where
  kind : ViewKind
  pending : KV
  base : KV
  deriving DecidableEq, Repr

/-- Modelled from the spec: the store `app.StoreApp` (the VersionedStore), which
lives in the SDK.  It holds the committed height, the committed snapshots
(newest first) and the pending writes of the Deliver and of the Check view.  A
commit that cannot persist ends the process and is not part of the model. -/
structure StoreApp where
  height : Nat
  snapshots : List KV
  deliver : KV
  check : KV
  deriving DecidableEq, Repr

/-- The latest committed snapshot. -/
def StoreApp.latest (s : StoreApp) : KV :=
  s.snapshots.headD []

/-- Modelled from the spec: `check()` returns the current Check view. -/
def StoreApp.Check (s : StoreApp) : SimpleDB :=
  { kind := ViewKind.Check, pending := s.check, base := s.latest }

/-- Modelled from the spec: `append()` returns the current Deliver view. -/
def StoreApp.Append (s : StoreApp) : SimpleDB :=
  { kind := ViewKind.Deliver, pending := s.deliver, base := s.latest }

/-- Modelled from the spec: `workingHeight()` is the committed height plus one. -/
def StoreApp.WorkingHeight (s : StoreApp) : Nat :=
  s.height + 1

/-- Modelled from the spec: `commit()` folds the pending writes of the Deliver
view into a new snapshot at `height + 1`, discards both views and returns the
new height. -/
def StoreApp.Commit (s : StoreApp) : StoreApp × Nat :=
  ({ height := s.height + 1,
     snapshots := (s.deliver ++ s.latest) :: s.snapshots,
     deliver := [],
     check := [] },
   s.height + 1)

/-- The writes a callee made through a view are those of the view it was handed:
the store keeps them as the pending writes of the view of that kind. -/
def StoreApp.put (s : StoreApp) (v : ViewKind) (pending : KV) : StoreApp :=
  match v with
  | ViewKind.Check => { s with check := pending }
  | ViewKind.Deliver => { s with deliver := pending }

/-! ## The chain, the codecs and the HTTP types -/

/-- A decoded transaction (`sdk.Tx`). -/
structure Tx where
  payload : Bytes
  deriving DecidableEq, Repr

/-- The logger: the key/value pairs added with `With`. -/
abbrev Logger := List (String × String)

/-- The value `logger` of rest.go, line 33. -/
def logger : Logger := []

/-- The call `logger.With(key, value)`. -/
def Logger.With (l : Logger) (key value : String) : Logger :=
  l ++ [(key, value)]

/-- The execution context of one call. -/
structure Context where
  chainID : String
  height : Nat
  log : Logger
  deriving DecidableEq, Repr

/-- The call `stack.NewContext(chainID, height, logger)`. -/
def stack.NewContext (chainID : String) (height : Nat) (log : Logger) : Context :=
  { chainID := chainID, height := height, log := log }

/-- The result of a chain call (`sdk.CheckResult`, `sdk.DeliverResult`). -/
structure Result where
  Data : Bytes
  Log : String
  deriving DecidableEq, Repr

/-- What a call into the chain leaves behind: the pending writes of the view it
was handed, as they are after the call, and the returned pair `(res, err)`. -/
structure Outcome (ρ : Type) where
  pending : KV
  res : ρ
  err : Option Error

/-- The chain `sdk.Handler`.  A call receives a view and nothing else of the
store, so all it can change are the pending writes of that view. -/
structure Handler where
  InitState : Logger → SimpleDB → String → String → String → Outcome String
  CheckTx : Context → SimpleDB → Tx → Outcome Result
  DeliverTx : Context → SimpleDB → Tx → Outcome Result

/-- The call `.Dispatch(routes...)`, which builds the chain from the collected
stages and the routes; `build` is the library's construction. -/
def builder.Dispatch (s : builder) (build : List Middleware → List Dispatchable → Handler)
    (routes : List Dispatchable) : Handler :=
  build s.middles routes

/-- One genesis entry (`genesis.Option`). -/
structure GenesisOption where
  Module : String
  Key : String
  Value : String
  deriving DecidableEq, Repr

/-- The query request `types.RequestQuery`. -/
structure RequestQuery where
  Data : Bytes
  Path : String
  Height : Nat
  Prove : Bool
  deriving DecidableEq, Repr

/-- The query response `types.ResponseQuery`. -/
structure ResponseQuery where
  Code : Nat
  Index : Int
  Key : Bytes
  Value : Bytes
  Proof : Bytes
  Height : Nat
  deriving DecidableEq, Repr

/-- An HTTP request: its URL path and what `ioutil.ReadAll(r.Body)` returns. -/
structure Request where
  Path : String
  Body : Except Error Bytes

/-- What a handler writes to its `http.ResponseWriter`. -/
inductive Response where
  /-- The call `http.Error(w, msg, code)`. -/
  | HttpError (msg : String) (code : Nat)
  /-- The call `common.WriteError(w, err)`. -/
  | WriteError (err : Error)
  /-- The call `common.WriteSuccess(w, data)`. -/
  | WriteSuccess (data : Bytes)
  /-- The reply of the router to a path with no registered handler. -/
  | NotFound
  deriving DecidableEq, Repr

/-- Whether a response is a success response. -/
def Response.isSuccess : Response → Bool
  | Response.WriteSuccess _ => true
  | _ => false

/-- The library functions and the environment that `rest.go` relies on. -/
structure Externals where
  /-- The function `os.ExpandEnv`. -/
  ExpandEnv : String → String
  /-- The function `path.Join`. -/
  Join : List String → String
  /-- The construction of the chain behind `Dispatch`. -/
  build : List Middleware → List Dispatchable → Handler
  /-- The function `app.NewStoreApp(chainID, dbPath, cacheSize, logger)`. -/
  NewStoreApp : String → String → Nat → Logger → Except Error StoreApp
  /-- The function `genesis.GetOptions(path)`. -/
  GetOptions : String → Except Error (List GenesisOption)
  /-- The function `sdk.LoadTx`. -/
  LoadTx : Bytes → Except Error Tx
  /-- The method `tx.MarshalJSON`, with its error. -/
  MarshalJSON : Tx → Bytes × Option Error
  /-- The function `proto.Unmarshal` into a `types.RequestQuery`. -/
  Unmarshal : Bytes → Except Error RequestQuery
  /-- The method `store.Query`, a read of the store. -/
  Query : StoreApp → RequestQuery → ResponseQuery
  /-- The function `proto.Marshal` of a `types.ResponseQuery`. -/
  Marshal : ResponseQuery → Except Error Bytes

/-- A call that `rest.go` makes on the store, on the chain or on the HTTP
library.  Chain calls carry the kind of the view they were handed, their
arguments and the error they returned. -/
inductive Event where
  /-- The call `store.Append()`. -/
  | Append
  /-- The call `store.Check()`. -/
  | Check
  /-- The call `store.WorkingHeight()`. -/
  | WorkingHeight
  /-- The call `store.Commit()`, with the height it returned. -/
  | Commit (height : Nat)
  /-- The call `store.Query(req)`. -/
  | Query (req : RequestQuery)
  /-- The call `handler.InitState(logger, state, module, key, value)`. -/
  | InitState (view : ViewKind) (opt : GenesisOption) (err : Option Error)
  /-- The call `handler.CheckTx(ctx, state, tx)`. -/
  | CheckTx (view : ViewKind) (tx : Tx) (err : Option Error)
  /-- The call `handler.DeliverTx(ctx, state, tx)`. -/
  | DeliverTx (view : ViewKind) (tx : Tx) (err : Option Error)
  /-- The call `http.ListenAndServe(addr, r)`. -/
  | ListenAndServe (addr : String)
  deriving DecidableEq, Repr

/-- The package-level variables `handler`, `store` and `chainID`, and the trace
of the calls made so far. -/
structure World where
  handler : Handler
  store : StoreApp
  chainID : String
  trace : List Event

/-- The constant `EyesCacheSize`. -/
def EyesCacheSize : Nat := 10000

/-! ## The handlers of rest.go -/

/-- The handler `checkTx` (rest.go, lines 111-139). -/
def checkTx (env : Externals) (g : World) (r : Request) : World × Response :=
  match r.Body with
  | Except.error err => (g, Response.HttpError err 500)
  | Except.ok b =>
    match env.LoadTx b with
    | Except.error err => (g, Response.WriteError err)
    | Except.ok tx =>
      let txJSON := (env.MarshalJSON tx).1
      let ctx := stack.NewContext g.chainID g.store.WorkingHeight
        (Logger.With logger "call" "checktx")
      let state := g.store.Check
      let out := g.handler.CheckTx ctx state tx
      ({ g with
          store := g.store.put state.kind out.pending,
          trace := g.trace ++
            [Event.WorkingHeight, Event.Check, Event.CheckTx state.kind tx out.err] },
        Response.WriteSuccess txJSON)

/-- The handler `deliverTx` (rest.go, lines 141-169). -/
def deliverTx (env : Externals) (g : World) (r : Request) : World × Response :=
  match r.Body with
  | Except.error err => (g, Response.HttpError err 500)
  | Except.ok b =>
    match env.LoadTx b with
    | Except.error err => (g, Response.WriteError err)
    | Except.ok tx =>
      let txJSON := (env.MarshalJSON tx).1
      let ctx := stack.NewContext g.chainID g.store.WorkingHeight
        (Logger.With logger "call" "delivertx")
      let state := g.store.Append
      let out := g.handler.DeliverTx ctx state tx
      ({ g with
          store := g.store.put state.kind out.pending,
          trace := g.trace ++
            [Event.WorkingHeight, Event.Append, Event.DeliverTx state.kind tx out.err] },
        Response.WriteSuccess txJSON)

/-- The handler `query` (rest.go, lines 171-204). -/
def query (env : Externals) (g : World) (r : Request) : World × Response :=
  match r.Body with
  | Except.error err => (g, Response.HttpError err 500)
  | Except.ok b =>
    match env.Unmarshal b with
    | Except.error err => (g, Response.HttpError err 500)
    | Except.ok req =>
      let resp := env.Query g.store req
      let g' := { g with trace := g.trace ++ [Event.Query req] }
      match env.Marshal resp with
      | Except.error err => (g', Response.HttpError err 500)
      | Except.ok out => (g', Response.WriteSuccess out)

/-! ## The router -/

/-- The router `mux.Router`: the registered paths with their handlers, in the
order of registration. -/
structure Router where
  routes : List (String × (World → Request → World × Response))

/-- The call `mux.NewRouter()`. -/
def mux.NewRouter : Router :=
  { routes := [] }

/-- The call `r.HandleFunc(path, f)`. -/
def Router.HandleFunc (r : Router) (path : String) (f : World → Request → World × Response) :
    Router :=
  { routes := r.routes ++ [(path, f)] }

/-- The router serving one request: the first route registered for the path of
the request handles it; a request for any other path is answered with 404. -/
def Router.ServeHTTP (r : Router) (g : World) (req : Request) : World × Response :=
  match r.routes.find? (fun route => route.1 == req.Path) with
  | some route => route.2 g req
  | none => (g, Response.NotFound)

/-- The server at work: the requests are served one after the other, and the
responses are collected in the order of the requests. -/
def serve (r : Router) : World → List Request → World × List Response
  | g, [] => (g, [])
  | g, req :: reqs =>
    let step := r.ServeHTTP g req
    let rest := serve r step.1 reqs
    (rest.1, step.2 :: rest.2)

/-! ## The function main -/

/-- The genesis loop of `main` (rest.go, lines 84-97): the store and the trace
after the loop, and the error on which the loop returned, if any. -/
def genesisLoop (handler : Handler) :
    List GenesisOption → StoreApp → List Event → StoreApp × List Event × Option Error
  | [], store, trace => (store, trace, none)
  | opt :: opts, store, trace =>
    if opt.Module = "base" then genesisLoop handler opts store trace
    else
      let state := store.Append
      let out := handler.InitState logger state opt.Module opt.Key opt.Value
      let store' := store.put state.kind out.pending
      let trace' := trace ++ [Event.Append, Event.InitState state.kind opt out.err]
      match out.err with
      | some err => (store', trace', some err)
      | none => genesisLoop handler opts store' trace'

/-- The router that `main` sets up (rest.go, lines 101-104). -/
def router (env : Externals) : Router :=
  ((mux.NewRouter.HandleFunc "/check_tx" (checkTx env)).HandleFunc
    "/deliver_tx" (deliverTx env)).HandleFunc "/query" (query env)

/-- How a run of the process ends: the store it leaves behind (none if it could
not be created), the trace of the calls it made, and the responses it wrote. -/
structure Run where
  store : Option StoreApp
  trace : List Event
  responses : List Response

/-- The function `main` (rest.go, lines 35-108), run on the requests that arrive
while the server listens. -/
def main (env : Externals) (reqs : List Request) : Run :=
  let rootDir := env.ExpandEnv "$HOME/.cybermiles-travis"
  let chainID := "travis-1"
  let handler := chainBuilder.Dispatch env.build chainRoutes
  match env.NewStoreApp chainID (env.Join [rootDir, "data", "merkleeyes.db"])
      EyesCacheSize logger with
  | Except.error _ => { store := none, trace := [], responses := [] }
  | Except.ok store =>
    match env.GetOptions (rootDir ++ "/genesis.json") with
    | Except.error _ => { store := some store, trace := [], responses := [] }
    | Except.ok opts =>
      match genesisLoop handler opts store [] with
      | (store1, trace1, some _) => { store := some store1, trace := trace1, responses := [] }
      | (store1, trace1, none) =>
        let committed := store1.Commit
        let g : World :=
          { handler := handler,
            store := committed.1,
            chainID := chainID,
            trace := trace1 ++ [Event.Commit committed.2, Event.ListenAndServe ":8088"] }
        let served := serve (router env) g reqs
        { store := some served.1.store, trace := served.1.trace, responses := served.2 }

/-! ## Reading a trace -/

/-- One call of `handler.InitState` as the trace records it. -/
structure InitCall where
  view : ViewKind
  opt : GenesisOption
  err : Option Error
  deriving DecidableEq, Repr

/-- The calls of `handler.InitState` in a trace, in order. -/
def initStateCalls (trace : List Event) : List InitCall :=
  trace.filterMap fun e =>
    match e with
    | Event.InitState v opt err => some { view := v, opt := opt, err := err }
    | _ => none

/-- The genesis entries that the loop does not skip. -/
def nonBase (opts : List GenesisOption) : List GenesisOption :=
  opts.filter fun opt => decide (opt.Module ≠ "base")

/-- Whether an event is a call of `store.Commit`. -/
def Event.isCommit : Event → Bool
  | Event.Commit _ => true
  | _ => false

/-- Whether an event belongs to the genesis loop: obtaining the Deliver view or
calling `handler.InitState`. -/
def Event.isGenesis : Event → Bool
  | Event.Append => true
  | Event.InitState _ _ _ => true
  | _ => false

/-- Whether an event belongs to the serving of a request by `checkTx`,
`deliverTx` or `query`. -/
def Event.isRequest : Event → Bool
  | Event.WorkingHeight => true
  | Event.Check => true
  | Event.Append => true
  | Event.CheckTx _ _ _ => true
  | Event.DeliverTx _ _ _ => true
  | Event.Query _ => true
  | _ => false

/-- The kind of view that a chain call was handed, for the events that are chain
calls. -/
def Event.view? : Event → Option ViewKind
  | Event.InitState v _ _ => some v
  | Event.CheckTx v _ _ => some v
  | Event.DeliverTx v _ _ => some v
  | _ => none

/-! ## A concrete node, for evaluating the definitions -/

/-- A chain that writes what it is given to the view, rejects the genesis key
`"bad"` and rejects every transaction whose first byte is 1. -/
def sampleHandler : Handler :=
  { InitState := fun _ state _ key value =>
      if key = "bad" then { pending := state.pending, res := "", err := some "bad key" }
      else { pending := ([key.length], [value.length]) :: state.pending, res := "ok", err := none },
    CheckTx := fun _ state tx =>
      if tx.payload.head? = some 1 then
        { pending := state.pending, res := { Data := [], Log := "" }, err := some "unauthorized" }
      else { pending := (tx.payload, [1]) :: state.pending, res := { Data := [], Log := "" },
             err := none },
    DeliverTx := fun _ state tx =>
      if tx.payload.head? = some 1 then
        { pending := state.pending, res := { Data := [], Log := "" }, err := some "unauthorized" }
      else { pending := (tx.payload, [1]) :: state.pending, res := { Data := [], Log := "" },
             err := none } }

/-- A blank store at height 0. -/
def sampleStore : StoreApp :=
  { height := 0, snapshots := [], deliver := [], check := [] }

/-- An environment whose codecs reject every body that starts with the byte 0,
and whose genesis file holds the given entries. -/
def sampleEnv (opts : List GenesisOption) : Externals :=
  { ExpandEnv := fun s => s,
    Join := fun parts => String.intercalate "/" parts,
    build := fun _ _ => sampleHandler,
    NewStoreApp := fun _ _ _ _ => Except.ok sampleStore,
    GetOptions := fun _ => Except.ok opts,
    LoadTx := fun b => if b.head? = some 0 then Except.error "malformed tx" else Except.ok { payload := b },
    MarshalJSON := fun tx => (tx.payload, none),
    Unmarshal := fun b =>
      if b.head? = some 0 then Except.error "malformed query"
      else Except.ok { Data := b, Path := "/key", Height := 0, Prove := false },
    Query := fun store req =>
      { Code := 0, Index := 0, Key := req.Data, Value := [], Proof := [], Height := store.height },
    Marshal := fun resp => Except.ok resp.Key }

/-- The package-level variables of the concrete node, after a genesis without
entries. -/
def sampleWorld : World :=
  { handler := sampleHandler, store := sampleStore.Commit.1, chainID := "travis-1",
    trace := [Event.Commit 1, Event.ListenAndServe ":8088"] }

/-- Three genesis entries that all succeed, one of them for the module `"base"`. -/
def sampleGenesis : List GenesisOption :=
  [ { Module := "base", Key := "chain_id", Value := "travis-1" },
    { Module := "coin", Key := "account", Value := "alice" },
    { Module := "coin", Key := "account", Value := "bob" } ]

/-- Four genesis entries, the third of which is rejected. -/
def sampleBadGenesis : List GenesisOption :=
  [ { Module := "coin", Key := "account", Value := "alice" },
    { Module := "base", Key := "chain_id", Value := "travis-1" },
    { Module := "coin", Key := "bad", Value := "x" },
    { Module := "coin", Key := "account", Value := "bob" } ]

/-- A request whose body decodes to a transaction that the chain rejects. -/
def sampleRejected : Request :=
  { Path := "/deliver_tx", Body := Except.ok [1, 7] }

/-- A request whose body decodes, as a transaction that the chain accepts and as
a query. -/
def sampleAccepted : Request :=
  { Path := "/deliver_tx", Body := Except.ok [2, 7] }

/-- A request whose body neither decodes as a transaction nor as a query. -/
def sampleMalformed : Request :=
  { Path := "/check_tx", Body := Except.ok [0, 7] }

/-- The context that `checkTx` builds. -/
def checkContext (g : World) : Context :=
  stack.NewContext g.chainID g.store.WorkingHeight (Logger.With logger "call" "checktx")

/-- The context that `deliverTx` builds. -/
def deliverContext (g : World) : Context :=
  stack.NewContext g.chainID g.store.WorkingHeight (Logger.With logger "call" "delivertx")

/-- What serving requests changes in the world: the trace grows by events of
request serving only, and the committed height, the committed snapshots, the
chain and the chain identifier stay as they are. -/
def Served (g g' : World) : Prop :=
  ∃ evs, g'.trace = g.trace ++ evs ∧ (∀ e ∈ evs, e.isRequest = true) ∧
    g'.store.height = g.store.height ∧ g'.store.snapshots = g.store.snapshots ∧
    g'.handler = g.handler ∧ g'.chainID = g.chainID

/-- The chain that `main` builds and stores in `handler`. -/
def chain (env : Externals) : Handler :=
  chainBuilder.Dispatch env.build chainRoutes

/-- The directory `rootDir` of `main`. -/
def rootDir (env : Externals) : String :=
  env.ExpandEnv "$HOME/.cybermiles-travis"

/-- The result of the call of `app.NewStoreApp` in `main`. -/
def openStore (env : Externals) : Except Error StoreApp :=
  env.NewStoreApp "travis-1" (env.Join [rootDir env, "data", "merkleeyes.db"]) EyesCacheSize logger

/-- The result of the call of `genesis.GetOptions` in `main`. -/
def genesisOptions (env : Externals) : Except Error (List GenesisOption) :=
  env.GetOptions (rootDir env ++ "/genesis.json")

/-- The world in which the server starts: the package-level variables as `main`
has set them once the genesis loop has left the given store and trace and the
store has been committed. -/
def serving (env : Externals) (store1 : StoreApp) (trace1 : List Event) : World :=
  { handler := chain env,
    store := store1.Commit.1,
    chainID := "travis-1",
    trace := trace1 ++ [Event.Commit store1.Commit.2, Event.ListenAndServe ":8088"] }

/-- Modelled from the spec: the call that reaches the stage standing behind the
stages `pre`, in the run of the chain on `call`: each stage of `pre` hands its
possibly changed call on to the next; if one of them rejects, no call reaches
the stage behind them and the rejection is the result. -/
def handedOn {α : Type} (stage : Middleware → α → Except Error α) :
    List Middleware → α → Except Error α
  | [], call => Except.ok call
  | s :: rest, call =>
    match stage s call with
    | Except.error e => Except.error e
    | Except.ok call' => handedOn stage rest call'

/-- Stages over calls that are numbers: the logger stage adds one to the call,
the signature stage rejects the call 1 and hands every other call on, and every
other stage hands the call on as it is. -/
def sampleStage : Middleware → Nat → Except Error Nat
  | Middleware.Logger, call => Except.ok (call + 1)
  | Middleware.Signatures, call =>
    if call = 1 then Except.error "invalid signature" else Except.ok call
  | _, call => Except.ok call

/-! ## The order of the stages -/

/-- The list of stages, written out. -/
theorem chainStages_eq :
    chainStages =
      [ Middleware.Logger, Middleware.Recovery, Middleware.Signatures, Middleware.Chain,
        Middleware.Checkpoint true false, Middleware.ReplayCheck, Middleware.IBCMiddleware,
        Middleware.RolesMiddleware, feeStage, Middleware.Checkpoint false true ] := rfl

/-- A stage that ran although it stands behind the stage `s` in the list ran
because `s` ran and handed the call on. -/
theorem process_ran_behind {α : Type} (stage : Middleware → α → Except Error α)
    (s t : Middleware) (rest : List Middleware) (hts : t ≠ s) :
    ∀ (pre : List Middleware) (call : α), t ∉ pre →
      t ∈ (process stage (pre ++ s :: rest) call).1 →
      s ∈ (process stage (pre ++ s :: rest) call).1 ∧ ∃ c c', stage s c = Except.ok c' := by
  intro pre
  induction pre with
  | nil =>
    intro call _ hmem
    simp only [List.nil_append, process] at hmem ⊢
    cases hs : stage s call with
    | error e => simp [hs, hts] at hmem
    | ok c' => exact ⟨by simp, call, c', hs⟩
  | cons p pre ih =>
    intro call hpre hmem
    have hp : t ≠ p := fun h => hpre (by simp [h])
    have hpre' : t ∉ pre := fun h => hpre (by simp [h])
    simp only [List.cons_append, process] at hmem ⊢
    cases hs : stage p call with
    | error e => simp [hs, hp] at hmem
    | ok c' =>
      simp only [hs, List.mem_cons] at hmem ⊢
      rcases hmem with h | h
      · exact absurd h hp
      · obtain ⟨h1, h2⟩ := ih c' hpre' h
        exact ⟨Or.inr h1, h2⟩

/-- A stage that rejects the call that reaches it ends the run: the stages
before it and the stage itself ran, and no stage behind it. -/
theorem process_rejected_at {α : Type} (stage : Middleware → α → Except Error α)
    (s : Middleware) (rest : List Middleware) :
    ∀ (pre : List Middleware) (call c : α) (e : Error),
      handedOn stage pre call = Except.ok c → stage s c = Except.error e →
      process stage (pre ++ s :: rest) call = (pre ++ [s], some e) := by
  intro pre
  induction pre with
  | nil =>
    intro call c e hh hs
    simp only [handedOn, Except.ok.injEq] at hh
    subst hh
    simp [process, hs]
  | cons p pre ih =>
    intro call c e hh hs
    cases hp : stage p call with
    | error e' => simp [handedOn, hp] at hh
    | ok c' =>
      simp only [handedOn, hp] at hh
      simp [process, hp, ih c' c e hh hs]

/-- A stage that ran although it stands behind the stage `s` in the list ran
because a call reached `s` in this run and `s` handed that call on. -/
theorem process_ran_behind_handed {α : Type} (stage : Middleware → α → Except Error α)
    (s t : Middleware) (rest : List Middleware) (hts : t ≠ s) :
    ∀ (pre : List Middleware) (call : α), t ∉ pre →
      t ∈ (process stage (pre ++ s :: rest) call).1 →
      ∃ c c', handedOn stage pre call = Except.ok c ∧ stage s c = Except.ok c' := by
  intro pre
  induction pre with
  | nil =>
    intro call _ hmem
    simp only [List.nil_append, process] at hmem
    cases hs : stage s call with
    | error e => simp [hs, hts] at hmem
    | ok c' => exact ⟨call, c', rfl, hs⟩
  | cons p pre ih =>
    intro call hpre hmem
    have hp : t ≠ p := fun h => hpre (by simp [h])
    have hpre' : t ∉ pre := fun h => hpre (by simp [h])
    simp only [List.cons_append, process] at hmem
    cases hs : stage p call with
    | error e => simp [hs, hp] at hmem
    | ok c' =>
      simp only [hs, List.mem_cons] at hmem
      rcases hmem with h | h
      · exact absurd h hp
      · obtain ⟨c, c'', h1, h2⟩ := ih c' hpre' h
        exact ⟨c, c'', by simp [handedOn, hs, h1], h2⟩

/-- Claim C7, as stated, fails: the first element of the list of stages is the
logger stage `base.Logger`, not the recovery wrapper `stack.Recovery`. -/
theorem recovery_not_first :
    chainStages.head? = some Middleware.Logger ∧
      chainStages.head? ≠ some Middleware.Recovery := by
  decide

/-- Claim C7, amended: the recovery wrapper is the second element of the list of
stages, right behind the logger stage, which is the outermost; every stage other
than the logger stage stands behind the recovery wrapper, and in every run of
the chain a stage other than the logger stage runs only after the recovery
wrapper has been entered. -/
theorem recovery_second_inside_logger :
    chainStages[0]? = some Middleware.Logger ∧
      chainStages[1]? = some Middleware.Recovery ∧
      (∀ s ∈ chainStages, s ≠ Middleware.Logger → s ≠ Middleware.Recovery →
        chainStages.indexOf Middleware.Recovery < chainStages.indexOf s) ∧
      (∀ (α : Type) (stage : Middleware → α → Except Error α) (call : α),
        ∀ s ∈ (process stage chainStages call).1, s ≠ Middleware.Logger →
          Middleware.Recovery ∈ (process stage chainStages call).1) := by
  refine ⟨by decide, by decide, by decide, ?_⟩
  intro α stage call s hs hne
  by_cases hr : s = Middleware.Recovery
  · exact hr ▸ hs
  · rw [chainStages_eq] at hs ⊢
    exact (process_ran_behind stage Middleware.Recovery s _ hr [Middleware.Logger] call
      (by simpa using hne) hs).1

/-- Claim C8: in the list of stages the signature-verification stage stands
strictly before the fee-deduction stage, and both occur in the list.  In every
run of the chain, whatever the stages do: if the signature stage rejects the
call that reaches it in this run, the run ends there, the stages that ran are
the logger stage, the recovery wrapper and the signature stage, and the fee
stage did not run; and the fee stage runs only if a call reached the signature
stage in this run and the signature stage handed that very call on. -/
theorem signatures_before_fee :
    Middleware.Signatures ∈ chainStages ∧ feeStage ∈ chainStages ∧
      chainStages.indexOf Middleware.Signatures < chainStages.indexOf feeStage ∧
      (∀ (α : Type) (stage : Middleware → α → Except Error α) (call : α),
        feeStage ∈ (process stage chainStages call).1 →
          Middleware.Signatures ∈ (process stage chainStages call).1 ∧
            ∃ c c', stage Middleware.Signatures c = Except.ok c') ∧
      (∀ (α : Type) (stage : Middleware → α → Except Error α) (call : α),
        (∀ c, ∃ e, stage Middleware.Signatures c = Except.error e) →
          feeStage ∉ (process stage chainStages call).1) ∧
      (∀ (α : Type) (stage : Middleware → α → Except Error α) (call c : α) (e : Error),
        handedOn stage [Middleware.Logger, Middleware.Recovery] call = Except.ok c →
          stage Middleware.Signatures c = Except.error e →
          process stage chainStages call =
              ([Middleware.Logger, Middleware.Recovery, Middleware.Signatures], some e) ∧
            feeStage ∉ (process stage chainStages call).1) ∧
      (∀ (α : Type) (stage : Middleware → α → Except Error α) (call : α),
        feeStage ∈ (process stage chainStages call).1 →
          ∃ c c', handedOn stage [Middleware.Logger, Middleware.Recovery] call = Except.ok c ∧
            stage Middleware.Signatures c = Except.ok c') := by
  have key : ∀ (α : Type) (stage : Middleware → α → Except Error α) (call : α),
      feeStage ∈ (process stage chainStages call).1 →
        Middleware.Signatures ∈ (process stage chainStages call).1 ∧
          ∃ c c', stage Middleware.Signatures c = Except.ok c' := by
    intro α stage call h
    rw [chainStages_eq] at h ⊢
    exact process_ran_behind stage Middleware.Signatures feeStage _ (by decide)
      [Middleware.Logger, Middleware.Recovery] call (by decide) h
  refine ⟨by decide, by decide, by decide, key, ?_, ?_, ?_⟩
  · intro α stage call hrej hmem
    obtain ⟨_, c, c', hc⟩ := key α stage call hmem
    obtain ⟨e, he⟩ := hrej c
    rw [he] at hc
    cases hc
  · intro α stage call c e hh hs
    have hrun : process stage chainStages call =
        ([Middleware.Logger, Middleware.Recovery, Middleware.Signatures], some e) := by
      rw [chainStages_eq]
      exact process_rejected_at stage Middleware.Signatures _
        [Middleware.Logger, Middleware.Recovery] call c e hh hs
    refine ⟨hrun, ?_⟩
    rw [hrun]
    show feeStage ∉ [Middleware.Logger, Middleware.Recovery, Middleware.Signatures]
    decide
  · intro α stage call h
    rw [chainStages_eq] at h
    exact process_ran_behind_handed stage Middleware.Signatures feeStage _ (by decide)
      [Middleware.Logger, Middleware.Recovery] call (by decide) h

/-- A run in which the signature stage rejects the call that reaches it, and a
run in which it hands the call on: the call 0 reaches the signature stage as 1
and is rejected there, the call 5 reaches it as 6 and passes every stage. -/
theorem process_sampleStage :
    handedOn sampleStage [Middleware.Logger, Middleware.Recovery] 0 = Except.ok 1 ∧
      sampleStage Middleware.Signatures 1 = Except.error "invalid signature" ∧
      process sampleStage chainStages 0 =
        ([Middleware.Logger, Middleware.Recovery, Middleware.Signatures],
          some "invalid signature") ∧
      sampleStage Middleware.Signatures 6 = Except.ok 6 ∧
      process sampleStage chainStages 5 = (chainStages, none) :=
  ⟨rfl, rfl, rfl, rfl, rfl⟩

/-! ## The handlers -/

/-- Writing through a view changes neither the committed height nor the
committed snapshots. -/
theorem put_committed (s : StoreApp) (v : ViewKind) (pending : KV) :
    (s.put v pending).height = s.height ∧ (s.put v pending).snapshots = s.snapshots := by
  cases v <;> exact ⟨rfl, rfl⟩

/-- The two ways in which `checkTx` ends: it leaves the world as it was, or the
body decoded and the chain was called on the Check view. -/
theorem checkTx_cases (env : Externals) (g : World) (r : Request) :
    (checkTx env g r).1 = g ∨
      ∃ b tx, r.Body = Except.ok b ∧ env.LoadTx b = Except.ok tx ∧
        (checkTx env g r).1 =
          { g with
            store := g.store.put ViewKind.Check
              (g.handler.CheckTx (checkContext g) g.store.Check tx).pending,
            trace := g.trace ++ [Event.WorkingHeight, Event.Check,
              Event.CheckTx ViewKind.Check tx
                (g.handler.CheckTx (checkContext g) g.store.Check tx).err] } := by
  rcases hb : r.Body with err | b
  · left
    simp [checkTx, hb]
  · rcases hl : env.LoadTx b with err | tx
    · left
      simp [checkTx, hb, hl]
    · right
      refine ⟨b, tx, rfl, hl, ?_⟩
      simp only [checkTx, hb, hl]
      rfl

/-- The two ways in which `deliverTx` ends: it leaves the world as it was, or
the body decoded and the chain was called on the Deliver view. -/
theorem deliverTx_cases (env : Externals) (g : World) (r : Request) :
    (deliverTx env g r).1 = g ∨
      ∃ b tx, r.Body = Except.ok b ∧ env.LoadTx b = Except.ok tx ∧
        (deliverTx env g r).1 =
          { g with
            store := g.store.put ViewKind.Deliver
              (g.handler.DeliverTx (deliverContext g) g.store.Append tx).pending,
            trace := g.trace ++ [Event.WorkingHeight, Event.Append,
              Event.DeliverTx ViewKind.Deliver tx
                (g.handler.DeliverTx (deliverContext g) g.store.Append tx).err] } := by
  rcases hb : r.Body with err | b
  · left
    simp [deliverTx, hb]
  · rcases hl : env.LoadTx b with err | tx
    · left
      simp [deliverTx, hb, hl]
    · right
      refine ⟨b, tx, rfl, hl, ?_⟩
      simp only [deliverTx, hb, hl]
      rfl

/-- The two ways in which `query` ends: it leaves the world as it was, or the
body decoded and the store was queried. -/
theorem query_cases (env : Externals) (g : World) (r : Request) :
    (query env g r).1 = g ∨
      ∃ req, (query env g r).1 = { g with trace := g.trace ++ [Event.Query req] } := by
  rcases hb : r.Body with err | b
  · left
    simp [query, hb]
  · rcases hu : env.Unmarshal b with err | req
    · left
      simp [query, hb, hu]
    · right
      refine ⟨req, ?_⟩
      simp only [query, hb, hu]
      split <;> rfl

/-- Claim C1, evaluated at a failing input: the body `[1, 7]` decodes to a
transaction, the chain returns the error `"unauthorized"` from `CheckTx` and
from `DeliverTx`, and both handlers answer with the success response carrying
the transaction. -/
theorem chain_error_answered_with_success :
    (sampleEnv []).LoadTx [1, 7] = Except.ok { payload := [1, 7] } ∧
      (sampleWorld.handler.CheckTx (checkContext sampleWorld) sampleWorld.store.Check
        { payload := [1, 7] }).err = some "unauthorized" ∧
      (sampleWorld.handler.DeliverTx (deliverContext sampleWorld) sampleWorld.store.Append
        { payload := [1, 7] }).err = some "unauthorized" ∧
      (checkTx (sampleEnv []) sampleWorld sampleRejected).2 = Response.WriteSuccess [1, 7] ∧
      (deliverTx (sampleEnv []) sampleWorld sampleRejected).2 = Response.WriteSuccess [1, 7] ∧
      (checkTx (sampleEnv []) sampleWorld sampleRejected).1.trace =
        sampleWorld.trace ++ [Event.WorkingHeight, Event.Check,
          Event.CheckTx ViewKind.Check { payload := [1, 7] } (some "unauthorized")] ∧
      (deliverTx (sampleEnv []) sampleWorld sampleRejected).1.trace =
        sampleWorld.trace ++ [Event.WorkingHeight, Event.Append,
          Event.DeliverTx ViewKind.Deliver { payload := [1, 7] } (some "unauthorized")] := by
  refine ⟨rfl, rfl, rfl, rfl, rfl, rfl, rfl⟩

/-- The response of `checkTx` and of `deliverTx` to a body that decodes does not
depend on what the chain returns. -/
theorem decoded_always_success (env : Externals) (g : World) (r : Request) (b : Bytes) (tx : Tx)
    (hb : r.Body = Except.ok b) (htx : env.LoadTx b = Except.ok tx) :
    (checkTx env g r).2 = Response.WriteSuccess (env.MarshalJSON tx).1 ∧
      (deliverTx env g r).2 = Response.WriteSuccess (env.MarshalJSON tx).1 := by
  simp [checkTx, deliverTx, hb, htx]

/-- Claim C5: `checkTx` never obtains the Deliver view and hands the chain the
Check view only; `deliverTx` never obtains the Check view and hands the chain
the Deliver view only; neither touches the pending writes of the other view;
and on a body that decodes both call the one chain `handler`, `checkTx` on
`store.Check()` and `deliverTx` on `store.Append()`. -/
theorem mode_is_the_view_passed (env : Externals) (g : World) (r : Request) :
    (∃ evs, (checkTx env g r).1.trace = g.trace ++ evs ∧ Event.Append ∉ evs ∧
        ∀ e ∈ evs, ∀ v, e.view? = some v → v = ViewKind.Check) ∧
      (checkTx env g r).1.store.deliver = g.store.deliver ∧
      (∃ evs, (deliverTx env g r).1.trace = g.trace ++ evs ∧ Event.Check ∉ evs ∧
        ∀ e ∈ evs, ∀ v, e.view? = some v → v = ViewKind.Deliver) ∧
      (deliverTx env g r).1.store.check = g.store.check ∧
      (checkTx env g r).1.handler = g.handler ∧
      (deliverTx env g r).1.handler = g.handler ∧
      (∀ b tx, r.Body = Except.ok b → env.LoadTx b = Except.ok tx →
        (checkTx env g r).1.trace = g.trace ++ [Event.WorkingHeight, Event.Check,
            Event.CheckTx ViewKind.Check tx
              (g.handler.CheckTx (checkContext g) g.store.Check tx).err] ∧
          (checkTx env g r).1.store.check =
            (g.handler.CheckTx (checkContext g) g.store.Check tx).pending ∧
          (deliverTx env g r).1.trace = g.trace ++ [Event.WorkingHeight, Event.Append,
            Event.DeliverTx ViewKind.Deliver tx
              (g.handler.DeliverTx (deliverContext g) g.store.Append tx).err] ∧
          (deliverTx env g r).1.store.deliver =
            (g.handler.DeliverTx (deliverContext g) g.store.Append tx).pending) := by
  have hc := checkTx_cases env g r
  have hd := deliverTx_cases env g r
  refine ⟨?_, ?_, ?_, ?_, ?_, ?_, ?_⟩
  · rcases hc with h | ⟨b, tx, _, _, h⟩
    · exact ⟨[], by rw [h]; simp⟩
    · exact ⟨_, by rw [h], by simp, by simp [Event.view?]⟩
  · rcases hc with h | ⟨b, tx, _, _, h⟩ <;> rw [h]
    rfl
  · rcases hd with h | ⟨b, tx, _, _, h⟩
    · exact ⟨[], by rw [h]; simp⟩
    · exact ⟨_, by rw [h], by simp, by simp [Event.view?]⟩
  · rcases hd with h | ⟨b, tx, _, _, h⟩ <;> rw [h]
    rfl
  · rcases hc with h | ⟨b, tx, _, _, h⟩ <;> rw [h]
  · rcases hd with h | ⟨b, tx, _, _, h⟩ <;> rw [h]
  · intro b tx hb htx
    simp only [checkTx, deliverTx, hb, htx]
    exact ⟨rfl, rfl, rfl, rfl⟩

/-- Claim C6: a body on which `sdk.LoadTx` fails is answered by `checkTx` and by
`deliverTx` with the error response for that error, no view is obtained, the
chain is not called and the store is left as it was; a body on which
`proto.Unmarshal` fails is answered by `query` with an error response and
`store.Query` is not called. -/
theorem malformed_rejected_at_boundary (env : Externals) (g : World) (r q : Request)
    (b c : Bytes) (e e' : Error)
    (hb : r.Body = Except.ok b) (hl : env.LoadTx b = Except.error e)
    (hc : q.Body = Except.ok c) (hu : env.Unmarshal c = Except.error e') :
    ((checkTx env g r).2 = Response.WriteError e ∧ (checkTx env g r).1.trace = g.trace ∧
        (checkTx env g r).1.store = g.store) ∧
      ((deliverTx env g r).2 = Response.WriteError e ∧ (deliverTx env g r).1.trace = g.trace ∧
        (deliverTx env g r).1.store = g.store) ∧
      ((query env g q).2 = Response.HttpError e' 500 ∧ (query env g q).1.trace = g.trace ∧
        (query env g q).1.store = g.store) ∧
      (checkTx env g r).2.isSuccess = false ∧ (deliverTx env g r).2.isSuccess = false ∧
      (query env g q).2.isSuccess = false := by
  simp [checkTx, deliverTx, query, hb, hl, hc, hu, Response.isSuccess]

/-- Claim C6 at a concrete input: the body `[0, 7]` fails both decoders of the
concrete node. -/
theorem malformed_rejected_at_boundary_sample :
    sampleMalformed.Body = Except.ok [0, 7] ∧
      (sampleEnv []).LoadTx [0, 7] = Except.error "malformed tx" ∧
      (sampleEnv []).Unmarshal [0, 7] = Except.error "malformed query" ∧
      (((checkTx (sampleEnv []) sampleWorld sampleMalformed).2 =
            Response.WriteError "malformed tx" ∧
          (checkTx (sampleEnv []) sampleWorld sampleMalformed).1.trace = sampleWorld.trace ∧
          (checkTx (sampleEnv []) sampleWorld sampleMalformed).1.store = sampleWorld.store) ∧
        ((deliverTx (sampleEnv []) sampleWorld sampleMalformed).2 =
            Response.WriteError "malformed tx" ∧
          (deliverTx (sampleEnv []) sampleWorld sampleMalformed).1.trace = sampleWorld.trace ∧
          (deliverTx (sampleEnv []) sampleWorld sampleMalformed).1.store = sampleWorld.store) ∧
        ((query (sampleEnv []) sampleWorld sampleMalformed).2 =
            Response.HttpError "malformed query" 500 ∧
          (query (sampleEnv []) sampleWorld sampleMalformed).1.trace = sampleWorld.trace ∧
          (query (sampleEnv []) sampleWorld sampleMalformed).1.store = sampleWorld.store) ∧
        (checkTx (sampleEnv []) sampleWorld sampleMalformed).2.isSuccess = false ∧
        (deliverTx (sampleEnv []) sampleWorld sampleMalformed).2.isSuccess = false ∧
        (query (sampleEnv []) sampleWorld sampleMalformed).2.isSuccess = false) :=
  ⟨rfl, rfl, rfl,
    malformed_rejected_at_boundary (sampleEnv []) sampleWorld sampleMalformed sampleMalformed
      [0, 7] [0, 7] "malformed tx" "malformed query" rfl rfl rfl rfl⟩

/-! ## The server -/

/-- Serving nothing changes nothing. -/
theorem Served.refl (g : World) : Served g g :=
  ⟨[], by simp, by simp, rfl, rfl, rfl, rfl⟩

/-- Serving requests one after the other. -/
theorem Served.trans {a b c : World} (hab : Served a b) (hbc : Served b c) : Served a c := by
  obtain ⟨e1, ht1, hr1, hh1, hs1, hc1, hi1⟩ := hab
  obtain ⟨e2, ht2, hr2, hh2, hs2, hc2, hi2⟩ := hbc
  refine ⟨e1 ++ e2, by rw [ht2, ht1, List.append_assoc], ?_, hh2.trans hh1, hs2.trans hs1,
    hc2.trans hc1, hi2.trans hi1⟩
  intro e he
  rcases List.mem_append.mp he with h | h
  · exact hr1 e h
  · exact hr2 e h

/-- What `checkTx` changes in the world. -/
theorem checkTx_served (env : Externals) (g : World) (r : Request) :
    Served g (checkTx env g r).1 := by
  rcases checkTx_cases env g r with h | ⟨b, tx, _, _, h⟩
  · rw [h]
    exact Served.refl g
  · rw [h]
    exact ⟨_, rfl, by simp [Event.isRequest], (put_committed _ _ _).1, (put_committed _ _ _).2,
      rfl, rfl⟩

/-- What `deliverTx` changes in the world. -/
theorem deliverTx_served (env : Externals) (g : World) (r : Request) :
    Served g (deliverTx env g r).1 := by
  rcases deliverTx_cases env g r with h | ⟨b, tx, _, _, h⟩
  · rw [h]
    exact Served.refl g
  · rw [h]
    exact ⟨_, rfl, by simp [Event.isRequest], (put_committed _ _ _).1, (put_committed _ _ _).2,
      rfl, rfl⟩

/-- What `query` changes in the world. -/
theorem query_served (env : Externals) (g : World) (r : Request) :
    Served g (query env g r).1 := by
  rcases query_cases env g r with h | ⟨req, h⟩
  · rw [h]
    exact Served.refl g
  · rw [h]
    exact ⟨_, rfl, by simp [Event.isRequest], rfl, rfl, rfl, rfl⟩

/-- The routes of the router that `main` sets up. -/
theorem router_routes (env : Externals) :
    (router env).routes =
      [("/check_tx", checkTx env), ("/deliver_tx", deliverTx env), ("/query", query env)] := rfl

/-- Every route that `main` registers is one of the three handlers. -/
theorem route_served (env : Externals) (g : World) (req : Request) :
    ∀ route ∈ (router env).routes, Served g (route.2 g req).1 := by
  intro route hroute
  rw [router_routes] at hroute
  simp only [List.mem_cons, List.mem_singleton, List.not_mem_nil, or_false] at hroute
  rcases hroute with h | h | h <;> subst h
  · exact checkTx_served env g req
  · exact deliverTx_served env g req
  · exact query_served env g req

/-- What the router changes in the world when it serves one request. -/
theorem ServeHTTP_served (env : Externals) (g : World) (req : Request) :
    Served g ((router env).ServeHTTP g req).1 := by
  unfold Router.ServeHTTP
  cases hf : (router env).routes.find? (fun route => route.1 == req.Path) with
  | none => exact Served.refl g
  | some route => exact route_served env g req route (List.mem_of_find?_eq_some hf)

/-- What the server changes in the world when it serves a list of requests. -/
theorem serve_served (env : Externals) (reqs : List Request) :
    ∀ g : World, Served g (serve (router env) g reqs).1 := by
  induction reqs with
  | nil => intro g; exact Served.refl g
  | cons req reqs ih =>
    intro g
    exact Served.trans (ServeHTTP_served env g req) (ih _)

/-- One response is written for each request. -/
theorem serve_responses (r : Router) (reqs : List Request) :
    ∀ g : World, (serve r g reqs).2.length = reqs.length := by
  induction reqs with
  | nil => intro g; rfl
  | cons req reqs ih =>
    intro g
    simp [serve, ih]

/-- An event of request serving is neither a commit nor a call of
`handler.InitState` nor the start of the server. -/
theorem isRequest_not_commit (e : Event) (h : e.isRequest = true) :
    e.isCommit = false ∧ (∀ v opt err, e ≠ Event.InitState v opt err) ∧
      ∀ addr, e ≠ Event.ListenAndServe addr := by
  cases e <;> simp_all [Event.isRequest, Event.isCommit]

/-- Claim C9, as stated, fails: on the concrete node the three registered entry
points are `/check_tx`, `/deliver_tx` and `/query`, and a deliver followed by a
request to any of the three leaves the committed height at 1 and adds no call of
`store.Commit` to the trace. -/
theorem no_commit_signal_sample :
    (router (sampleEnv [])).routes.map Prod.fst = ["/check_tx", "/deliver_tx", "/query"] ∧
      sampleWorld.store.height = 1 ∧
      ∀ path ∈ (router (sampleEnv [])).routes.map Prod.fst,
        (serve (router (sampleEnv [])) sampleWorld
            [sampleAccepted, { Path := path, Body := Except.ok [2, 7] }]).1.store.height = 1 ∧
          ((serve (router (sampleEnv [])) sampleWorld
            [sampleAccepted, { Path := path, Body := Except.ok [2, 7] }]).1.trace.filter
              Event.isCommit) = [Event.Commit 1] ∧
          (serve (router (sampleEnv [])) sampleWorld
            [sampleAccepted, { Path := path, Body := Except.ok [2, 7] }]).2.length = 2 := by
  refine ⟨rfl, rfl, ?_⟩
  intro path hpath
  rw [router_routes] at hpath
  simp only [List.map_cons, List.map_nil, List.mem_cons, List.mem_singleton, List.not_mem_nil,
    or_false] at hpath
  rcases hpath with h | h | h <;> subst h <;> decide

/-- Claim C9, amended: the entry points the server registers are three,
`/check_tx`, `/deliver_tx` and `/query`; there is no commit signal among them:
no registered entry point calls the store's commit, and serving any sequence of
requests, a deliver included, leaves the committed height and the committed
snapshots as they were. -/
theorem no_commit_entry_point (env : Externals) (g : World) (reqs : List Request) :
    (router env).routes.map Prod.fst = ["/check_tx", "/deliver_tx", "/query"] ∧
      (∀ route ∈ (router env).routes, ∀ req : Request,
        (route.2 g req).1.store.height = g.store.height ∧
          ∃ evs, (route.2 g req).1.trace = g.trace ++ evs ∧ ∀ e ∈ evs, e.isCommit = false) ∧
      (serve (router env) g reqs).1.store.height = g.store.height ∧
      (serve (router env) g reqs).1.store.snapshots = g.store.snapshots ∧
      ∃ evs, (serve (router env) g reqs).1.trace = g.trace ++ evs ∧
        ∀ e ∈ evs, e.isCommit = false := by
  refine ⟨rfl, ?_, ?_⟩
  · intro route hroute req
    obtain ⟨evs, ht, hr, hh, _, _, _⟩ := route_served env g req route hroute
    exact ⟨hh, evs, ht, fun e he => (isRequest_not_commit e (hr e he)).1⟩
  · obtain ⟨evs, ht, hr, hh, hs, _, _⟩ := serve_served env reqs g
    exact ⟨hh, hs, evs, ht, fun e he => (isRequest_not_commit e (hr e he)).1⟩

/-! ## The genesis loop -/

/-- The calls of `handler.InitState` in a trace made of two parts. -/
theorem initStateCalls_append (a b : List Event) :
    initStateCalls (a ++ b) = initStateCalls a ++ initStateCalls b := by
  simp [initStateCalls, List.filterMap_append]

/-- Events of request serving hold no call of `handler.InitState`. -/
theorem initStateCalls_requests (evs : List Event) (h : ∀ e ∈ evs, e.isRequest = true) :
    initStateCalls evs = [] := by
  induction evs with
  | nil => rfl
  | cons e evs ih =>
    have he := h e (by simp)
    have ht : initStateCalls evs = [] := ih (fun x hx => h x (by simp [hx]))
    cases e <;> simp_all [initStateCalls, Event.isRequest]

/-- What the genesis loop does, whatever the chain, the entries and the store:
the events it adds, the calls of `handler.InitState` among them, the error it
returns and the store it leaves. -/
theorem genesisLoop_spec (handler : Handler) (opts : List GenesisOption) :
    ∀ (store : StoreApp) (trace : List Event),
      ∃ evs, (genesisLoop handler opts store trace).2.1 = trace ++ evs ∧
        (∀ e ∈ evs, e.isGenesis = true) ∧
        (∀ c ∈ initStateCalls evs, c.view = ViewKind.Deliver) ∧
        (initStateCalls evs).map InitCall.opt <+: nonBase opts ∧
        (∀ pre c post, initStateCalls evs = pre ++ c :: post → post ≠ [] → c.err = none) ∧
        ((genesisLoop handler opts store trace).2.2 = none →
          (initStateCalls evs).map InitCall.opt = nonBase opts ∧
            ∀ c ∈ initStateCalls evs, c.err = none) ∧
        (∀ err, (genesisLoop handler opts store trace).2.2 = some err →
          ∃ pre c, initStateCalls evs = pre ++ [c] ∧ c.err = some err) ∧
        (genesisLoop handler opts store trace).1.height = store.height ∧
        (genesisLoop handler opts store trace).1.snapshots = store.snapshots ∧
        (genesisLoop handler opts store trace).1.check = store.check := by
  induction opts with
  | nil =>
    intro store trace
    exact ⟨[], by simp [genesisLoop], by simp, by simp [initStateCalls],
      by simp [initStateCalls, nonBase], by simp [initStateCalls],
      by simp [initStateCalls, nonBase], by simp [genesisLoop], rfl, rfl, rfl⟩
  | cons opt opts ih =>
    intro store trace
    by_cases hbase : opt.Module = "base"
    · have hnb : nonBase (opt :: opts) = nonBase opts := by simp [nonBase, hbase]
      have hloop : genesisLoop handler (opt :: opts) store trace =
          genesisLoop handler opts store trace := by simp [genesisLoop, hbase]
      rw [hloop, hnb]
      exact ih store trace
    · have hnb : nonBase (opt :: opts) = opt :: nonBase opts := by simp [nonBase, hbase]
      cases herr : (handler.InitState logger store.Append opt.Module opt.Key opt.Value).err with
      | some err =>
        have hloop : genesisLoop handler (opt :: opts) store trace =
            (store.put ViewKind.Deliver
                (handler.InitState logger store.Append opt.Module opt.Key opt.Value).pending,
              trace ++ [Event.Append, Event.InitState ViewKind.Deliver opt (some err)],
              some err) := by
          simp only [genesisLoop, hbase, herr, if_false]
          rfl
        rw [hloop, hnb]
        refine ⟨_, rfl, by simp [Event.isGenesis], by simp [initStateCalls],
          by simp [initStateCalls], ?_, by simp, ?_, rfl, rfl, rfl⟩
        · intro pre c post hsplit hpost
          have hlen := congrArg List.length hsplit
          simp [initStateCalls] at hlen
          cases post with
          | nil => exact absurd rfl hpost
          | cons x xs => simp at hlen; omega
        · intro err' herr'
          simp only [Option.some.injEq] at herr'
          exact ⟨[], { view := ViewKind.Deliver, opt := opt, err := some err },
            by simp [initStateCalls], by simp [herr']⟩
      | none =>
        have hloop : genesisLoop handler (opt :: opts) store trace =
            genesisLoop handler opts
              (store.put ViewKind.Deliver
                (handler.InitState logger store.Append opt.Module opt.Key opt.Value).pending)
              (trace ++ [Event.Append, Event.InitState ViewKind.Deliver opt none]) := by
          simp only [genesisLoop, hbase, herr, if_false]
          rfl
        obtain ⟨evs, ht, hg, hv, hp, hmid, hnone, hsome, hh, hs, hc⟩ :=
          ih (store.put ViewKind.Deliver
                (handler.InitState logger store.Append opt.Module opt.Key opt.Value).pending)
              (trace ++ [Event.Append, Event.InitState ViewKind.Deliver opt none])
        rw [hloop, hnb]
        have hcalls : initStateCalls
            ([Event.Append, Event.InitState ViewKind.Deliver opt none] ++ evs) =
            { view := ViewKind.Deliver, opt := opt, err := none } :: initStateCalls evs := by
          rw [initStateCalls_append]
          simp [initStateCalls]
        refine ⟨[Event.Append, Event.InitState ViewKind.Deliver opt none] ++ evs,
          by rw [ht, List.append_assoc], ?_, ?_, ?_, ?_, ?_, ?_, hh, hs, hc⟩
        · intro e he
          rcases List.mem_append.mp he with h | h
          · simp only [List.mem_cons, List.mem_singleton, List.not_mem_nil, or_false] at h
            rcases h with h | h <;> subst h <;> rfl
          · exact hg e h
        · intro c hcmem
          rw [hcalls] at hcmem
          rcases List.mem_cons.mp hcmem with h | h
          · subst h; rfl
          · exact hv c h
        · rw [hcalls]
          simpa using hp
        · intro pre c post hsplit hpost
          rw [hcalls] at hsplit
          cases pre with
          | nil =>
            simp only [List.nil_append, List.cons.injEq] at hsplit
            rw [← hsplit.1]
          | cons x pre' =>
            simp only [List.cons_append, List.cons.injEq] at hsplit
            exact hmid pre' c post hsplit.2 hpost
        · intro hn
          obtain ⟨h1, h2⟩ := hnone hn
          rw [hcalls]
          refine ⟨by simp [h1], ?_⟩
          intro c hcmem
          rcases List.mem_cons.mp hcmem with h | h
          · subst h; rfl
          · exact h2 c h
        · intro err' herr'
          obtain ⟨pre, c, h1, h2⟩ := hsome err' herr'
          exact ⟨_ :: pre, c, by rw [hcalls, h1]; rfl, h2⟩

/-! ## The function main -/

/-- The run of `main` when the genesis loop returns on an error. -/
theorem main_aborted (env : Externals) (reqs : List Request) (store0 : StoreApp)
    (opts : List GenesisOption) (err : Error)
    (hs : openStore env = Except.ok store0) (ho : genesisOptions env = Except.ok opts)
    (hg : (genesisLoop (chain env) opts store0 []).2.2 = some err) :
    main env reqs =
      { store := some (genesisLoop (chain env) opts store0 []).1,
        trace := (genesisLoop (chain env) opts store0 []).2.1,
        responses := [] } := by
  unfold openStore rootDir at hs
  unfold genesisOptions rootDir at ho
  unfold chain at hg ⊢
  rcases hgl : genesisLoop (chainBuilder.Dispatch env.build chainRoutes) opts store0 []
    with ⟨s1, t1, e⟩
  rw [hgl] at hg
  simp only at hg
  subst hg
  simp only [main, hs, ho, hgl]

/-- The run of `main` when the genesis loop runs to its end. -/
theorem main_served (env : Externals) (reqs : List Request) (store0 : StoreApp)
    (opts : List GenesisOption)
    (hs : openStore env = Except.ok store0) (ho : genesisOptions env = Except.ok opts)
    (hg : (genesisLoop (chain env) opts store0 []).2.2 = none) :
    main env reqs =
      { store := some (serve (router env)
          (serving env (genesisLoop (chain env) opts store0 []).1
            (genesisLoop (chain env) opts store0 []).2.1) reqs).1.store,
        trace := (serve (router env)
          (serving env (genesisLoop (chain env) opts store0 []).1
            (genesisLoop (chain env) opts store0 []).2.1) reqs).1.trace,
        responses := (serve (router env)
          (serving env (genesisLoop (chain env) opts store0 []).1
            (genesisLoop (chain env) opts store0 []).2.1) reqs).2 } := by
  unfold openStore rootDir at hs
  unfold genesisOptions rootDir at ho
  unfold serving chain at *
  rcases hgl : genesisLoop (chainBuilder.Dispatch env.build chainRoutes) opts store0 []
    with ⟨s1, t1, e⟩
  rw [hgl] at hg
  simp only at hg
  subst hg
  simp only [main, hs, ho, hgl]

/-- The calls of `handler.InitState` in a run of `main` are those of its genesis
loop. -/
theorem main_calls (env : Externals) (reqs : List Request) (store0 : StoreApp)
    (opts : List GenesisOption)
    (hs : openStore env = Except.ok store0) (ho : genesisOptions env = Except.ok opts) :
    initStateCalls (main env reqs).trace =
      initStateCalls (genesisLoop (chain env) opts store0 []).2.1 := by
  cases hg : (genesisLoop (chain env) opts store0 []).2.2 with
  | some err => rw [main_aborted env reqs store0 opts err hs ho hg]
  | none =>
    rw [main_served env reqs store0 opts hs ho hg]
    obtain ⟨sevs, ht, hr, _⟩ := serve_served env reqs
      (serving env (genesisLoop (chain env) opts store0 []).1
        (genesisLoop (chain env) opts store0 []).2.1)
    show initStateCalls (serve (router env) _ reqs).1.trace = _
    rw [ht, initStateCalls_append, initStateCalls_requests sevs hr]
    simp [serving, initStateCalls_append, initStateCalls]

/-- A list without commits, filtered for commits. -/
theorem filter_isCommit_nil (l : List Event) (h : ∀ e ∈ l, e.isCommit = false) :
    l.filter Event.isCommit = [] := by
  induction l with
  | nil => rfl
  | cons e l ih =>
    have he := h e (by simp)
    simp [List.filter, he, ih (fun x hx => h x (by simp [hx]))]

/-- An event of the genesis loop is not a commit. -/
theorem isGenesis_not_commit (e : Event) (h : e.isGenesis = true) : e.isCommit = false := by
  cases e <;> simp_all [Event.isGenesis, Event.isCommit]

/-- Claim C2: the calls of `handler.InitState` that `main` makes are, in order,
the entries whose module is not `"base"`, from the first of them on and without
a gap; every call but the last returned no error; the calls stop short of the
last such entry only behind a call that returned an error; every call is handed
the Deliver view, and no call is for an entry of the module `"base"`. -/
theorem genesis_passes_non_base (env : Externals) (reqs : List Request) (store0 : StoreApp)
    (opts : List GenesisOption)
    (hs : openStore env = Except.ok store0) (ho : genesisOptions env = Except.ok opts) :
    (initStateCalls (main env reqs).trace).map InitCall.opt <+: nonBase opts ∧
      (∀ pre c post, initStateCalls (main env reqs).trace = pre ++ c :: post → post ≠ [] →
        c.err = none) ∧
      ((initStateCalls (main env reqs).trace).map InitCall.opt = nonBase opts ∨
        ∃ pre c, initStateCalls (main env reqs).trace = pre ++ [c] ∧ c.err ≠ none) ∧
      (∀ c ∈ initStateCalls (main env reqs).trace,
        c.view = ViewKind.Deliver ∧ c.opt.Module ≠ "base") := by
  rw [main_calls env reqs store0 opts hs ho]
  obtain ⟨evs, ht, _, hv, hp, hmid, hnone, hsome, _⟩ :=
    genesisLoop_spec (chain env) opts store0 []
  rw [ht, List.nil_append]
  refine ⟨hp, hmid, ?_, ?_⟩
  · cases hg : (genesisLoop (chain env) opts store0 []).2.2 with
    | none => exact Or.inl (hnone hg).1
    | some err =>
      obtain ⟨pre, c, h1, h2⟩ := hsome err hg
      exact Or.inr ⟨pre, c, h1, by simp [h2]⟩
  · intro c hc
    refine ⟨hv c hc, ?_⟩
    have hmem : c.opt ∈ nonBase opts :=
      hp.subset (List.mem_map.mpr ⟨c, hc, rfl⟩)
    simpa [nonBase] using (List.mem_filter.mp hmem).2

/-- Claim C3: when some call of `handler.InitState` in the run of `main` returns
an error, that call is the last one and every call before it returned no error,
so that no later entry is passed to the chain; the trace holds events of the
genesis loop only, hence no call of `store.Commit` and no start of the server;
the store is left with the committed height and the committed snapshots that it
had when it was created; and no response is written. -/
theorem genesis_error_aborts (env : Externals) (reqs : List Request) (store0 : StoreApp)
    (opts : List GenesisOption)
    (hs : openStore env = Except.ok store0) (ho : genesisOptions env = Except.ok opts)
    (hfail : ∃ c ∈ initStateCalls (main env reqs).trace, c.err ≠ none) :
    (∃ pre c, initStateCalls (main env reqs).trace = pre ++ [c] ∧ c.err ≠ none ∧
        ∀ d ∈ pre, d.err = none) ∧
      (initStateCalls (main env reqs).trace).map InitCall.opt <+: nonBase opts ∧
      (∀ e ∈ (main env reqs).trace, e.isGenesis = true) ∧
      (∀ e ∈ (main env reqs).trace, e.isCommit = false) ∧
      (∃ s, (main env reqs).store = some s ∧ s.height = store0.height ∧
        s.snapshots = store0.snapshots) ∧
      (main env reqs).responses = [] := by
  have hcalls := main_calls env reqs store0 opts hs ho
  obtain ⟨evs, ht, hgen, _, hp, hmid, hnone, hsome, hh, hsn, _⟩ :=
    genesisLoop_spec (chain env) opts store0 []
  rw [List.nil_append] at ht
  rw [hcalls, ht] at hfail
  cases hg : (genesisLoop (chain env) opts store0 []).2.2 with
  | none =>
    obtain ⟨c, hc, hne⟩ := hfail
    exact absurd ((hnone hg).2 c hc) hne
  | some err =>
    obtain ⟨pre, c, h1, h2⟩ := hsome err hg
    rw [hcalls, main_aborted env reqs store0 opts err hs ho hg, ht]
    refine ⟨⟨pre, c, h1, by simp [h2], ?_⟩, hp, hgen,
      fun e he => isGenesis_not_commit e (hgen e he), ⟨_, rfl, hh, hsn⟩, rfl⟩
    intro d hd
    obtain ⟨p1, p2, hsplit⟩ := List.append_of_mem hd
    exact hmid p1 d (p2 ++ [c]) (by rw [h1, hsplit]; simp) (by simp)

/-- Claim C4: when no call of `handler.InitState` in the run of `main` returns
an error, the trace is the events of the genesis loop, in which every entry
whose module is not `"base"` was applied, then the one call of `store.Commit`,
then the start of the server, then the events of serving the requests; the
trace holds exactly one call of `store.Commit`, which raises the committed
height by one, and every request is answered after it. -/
theorem genesis_success_commits_once (env : Externals) (reqs : List Request)
    (store0 : StoreApp) (opts : List GenesisOption)
    (hs : openStore env = Except.ok store0) (ho : genesisOptions env = Except.ok opts)
    (hok : ∀ c ∈ initStateCalls (main env reqs).trace, c.err = none) :
    (∃ pre post, (main env reqs).trace =
          pre ++ Event.Commit (store0.height + 1) :: Event.ListenAndServe ":8088" :: post ∧
        (∀ e ∈ pre, e.isGenesis = true) ∧
        (initStateCalls pre).map InitCall.opt = nonBase opts ∧
        (∀ e ∈ post, e.isRequest = true)) ∧
      ((main env reqs).trace.filter Event.isCommit).length = 1 ∧
      (main env reqs).responses.length = reqs.length ∧
      (∃ s, (main env reqs).store = some s ∧ s.height = store0.height + 1) := by
  have hcalls := main_calls env reqs store0 opts hs ho
  obtain ⟨evs, ht, hgen, _, _, _, hnone, hsome, hh, _, _⟩ :=
    genesisLoop_spec (chain env) opts store0 []
  rw [List.nil_append] at ht
  rw [hcalls, ht] at hok
  cases hg : (genesisLoop (chain env) opts store0 []).2.2 with
  | some err =>
    obtain ⟨pre, c, h1, h2⟩ := hsome err hg
    have := hok c (by rw [h1]; simp)
    rw [h2] at this
    cases this
  | none =>
    obtain ⟨sevs, hst, hr, hsh, _⟩ := serve_served env reqs
      (serving env (genesisLoop (chain env) opts store0 []).1
        (genesisLoop (chain env) opts store0 []).2.1)
    have htrace : (main env reqs).trace =
        evs ++ Event.Commit (store0.height + 1) :: Event.ListenAndServe ":8088" :: sevs := by
      rw [main_served env reqs store0 opts hs ho hg]
      show (serve (router env) _ reqs).1.trace = _
      rw [hst]
      simp [serving, StoreApp.Commit, ht, hh]
    refine ⟨⟨evs, sevs, htrace, hgen, (hnone hg).1, hr⟩, ?_, ?_, ?_⟩
    · rw [htrace, List.filter_append,
        filter_isCommit_nil evs (fun e he => isGenesis_not_commit e (hgen e he))]
      simp [List.filter, Event.isCommit,
        filter_isCommit_nil sevs (fun e he => (isRequest_not_commit e (hr e he)).1)]
    · rw [main_served env reqs store0 opts hs ho hg]
      exact serve_responses _ reqs _
    · rw [main_served env reqs store0 opts hs ho hg]
      refine ⟨_, rfl, ?_⟩
      rw [hsh]
      simp [serving, StoreApp.Commit, hh]

/-! ## The theorems on main at the concrete node -/

/-- Claim C2 at a concrete input: the genesis file holds the four entries of
`sampleBadGenesis`, the second for the module `"base"` and the third rejected. -/
theorem genesis_passes_non_base_sample :
    openStore (sampleEnv sampleBadGenesis) = Except.ok sampleStore ∧
      genesisOptions (sampleEnv sampleBadGenesis) = Except.ok sampleBadGenesis ∧
      ((initStateCalls (main (sampleEnv sampleBadGenesis) []).trace).map InitCall.opt <+:
          nonBase sampleBadGenesis ∧
        (∀ pre c post,
          initStateCalls (main (sampleEnv sampleBadGenesis) []).trace = pre ++ c :: post →
            post ≠ [] → c.err = none) ∧
        ((initStateCalls (main (sampleEnv sampleBadGenesis) []).trace).map InitCall.opt =
            nonBase sampleBadGenesis ∨
          ∃ pre c, initStateCalls (main (sampleEnv sampleBadGenesis) []).trace = pre ++ [c] ∧
            c.err ≠ none) ∧
        (∀ c ∈ initStateCalls (main (sampleEnv sampleBadGenesis) []).trace,
          c.view = ViewKind.Deliver ∧ c.opt.Module ≠ "base")) :=
  ⟨rfl, rfl,
    genesis_passes_non_base (sampleEnv sampleBadGenesis) [] sampleStore sampleBadGenesis rfl rfl⟩

/-- Claim C3 at a concrete input: with the entries of `sampleBadGenesis` the
third entry is rejected with `"bad key"`, and a request is waiting. -/
theorem genesis_error_aborts_sample :
    openStore (sampleEnv sampleBadGenesis) = Except.ok sampleStore ∧
      genesisOptions (sampleEnv sampleBadGenesis) = Except.ok sampleBadGenesis ∧
      (∃ c ∈ initStateCalls (main (sampleEnv sampleBadGenesis) [sampleAccepted]).trace,
        c.err ≠ none) ∧
      ((∃ pre c,
          initStateCalls (main (sampleEnv sampleBadGenesis) [sampleAccepted]).trace =
            pre ++ [c] ∧ c.err ≠ none ∧ ∀ d ∈ pre, d.err = none) ∧
        (initStateCalls (main (sampleEnv sampleBadGenesis) [sampleAccepted]).trace).map
          InitCall.opt <+: nonBase sampleBadGenesis ∧
        (∀ e ∈ (main (sampleEnv sampleBadGenesis) [sampleAccepted]).trace,
          e.isGenesis = true) ∧
        (∀ e ∈ (main (sampleEnv sampleBadGenesis) [sampleAccepted]).trace,
          e.isCommit = false) ∧
        (∃ s, (main (sampleEnv sampleBadGenesis) [sampleAccepted]).store = some s ∧
          s.height = sampleStore.height ∧ s.snapshots = sampleStore.snapshots) ∧
        (main (sampleEnv sampleBadGenesis) [sampleAccepted]).responses = []) :=
  ⟨rfl, rfl, by decide,
    genesis_error_aborts (sampleEnv sampleBadGenesis) [sampleAccepted] sampleStore
      sampleBadGenesis rfl rfl (by decide)⟩

/-- Claim C4 at a concrete input: with the entries of `sampleGenesis` no entry
is rejected, and two requests are waiting. -/
theorem genesis_success_commits_once_sample :
    openStore (sampleEnv sampleGenesis) = Except.ok sampleStore ∧
      genesisOptions (sampleEnv sampleGenesis) = Except.ok sampleGenesis ∧
      (∀ c ∈ initStateCalls (main (sampleEnv sampleGenesis) [sampleAccepted, sampleRejected]).trace,
        c.err = none) ∧
      ((∃ pre post, (main (sampleEnv sampleGenesis) [sampleAccepted, sampleRejected]).trace =
            pre ++ Event.Commit (sampleStore.height + 1) ::
              Event.ListenAndServe ":8088" :: post ∧
          (∀ e ∈ pre, e.isGenesis = true) ∧
          (initStateCalls pre).map InitCall.opt = nonBase sampleGenesis ∧
          (∀ e ∈ post, e.isRequest = true)) ∧
        ((main (sampleEnv sampleGenesis) [sampleAccepted, sampleRejected]).trace.filter
          Event.isCommit).length = 1 ∧
        (main (sampleEnv sampleGenesis) [sampleAccepted, sampleRejected]).responses.length =
          [sampleAccepted, sampleRejected].length ∧
        (∃ s, (main (sampleEnv sampleGenesis) [sampleAccepted, sampleRejected]).store = some s ∧
          s.height = sampleStore.height + 1)) :=
  ⟨rfl, rfl, by decide,
    genesis_success_commits_once (sampleEnv sampleGenesis) [sampleAccepted, sampleRejected]
      sampleStore sampleGenesis rfl rfl (by decide)⟩

/-- The run of `main` on the entries of `sampleBadGenesis`, event by event. -/
theorem main_sampleBadGenesis_trace :
    (main (sampleEnv sampleBadGenesis) [sampleAccepted]).trace =
      [ Event.Append,
        Event.InitState ViewKind.Deliver
          { Module := "coin", Key := "account", Value := "alice" } none,
        Event.Append,
        Event.InitState ViewKind.Deliver
          { Module := "coin", Key := "bad", Value := "x" } (some "bad key") ] := by
  decide

/-- The run of `main` on the entries of `sampleGenesis` and two requests to
`/deliver_tx`, event by event. -/
theorem main_sampleGenesis_trace :
    (main (sampleEnv sampleGenesis) [sampleAccepted, sampleRejected]).trace =
      [ Event.Append,
        Event.InitState ViewKind.Deliver
          { Module := "coin", Key := "account", Value := "alice" } none,
        Event.Append,
        Event.InitState ViewKind.Deliver
          { Module := "coin", Key := "account", Value := "bob" } none,
        Event.Commit 1,
        Event.ListenAndServe ":8088",
        Event.WorkingHeight, Event.Append,
        Event.DeliverTx ViewKind.Deliver { payload := [2, 7] } none,
        Event.WorkingHeight, Event.Append,
        Event.DeliverTx ViewKind.Deliver { payload := [1, 7] } (some "unauthorized") ] := by
  decide

end TravisRpc
